import Mathlib

/-!
Verification of the pagination/cursor-following core of the `amoex` MOEX ISS
client (`amoex/client.py` and the table-extraction helper of
`amoex/request_helpers.py`).

The Python code is shallowly embedded: Python dicts become association lists
over `String` keys (insertion order preserved, keys unique in every dict the
interpreter can actually build), raised exceptions become `Except` errors, and
the asynchronous HTTP transport becomes an explicit input describing the
outcome of each GET.  Cell values of type `float` and float-valued JSON
numbers are outside the scope of every property below, so scalar cells are
restricted to strings and integers.
-/

set_option autoImplicit false

namespace Amoex

/-- A Python `dict` with string keys, as an insertion-ordered association
list.  Python dicts never hold a key twice; lemmas that need this take a
`Nodup` hypothesis on `dictKeys`. -/
abbrev Dict (α : Type) := List (String × α)

/-- Python `d[k]`-style lookup: first (and for genuine dicts only) binding. -/
def dictLookup {α : Type} : Dict α → String → Option α
  | [], _ => none
  | (k', v) :: rest, k => if k' = k then some v else dictLookup rest k

/-- Python `d[k] = v`: replace the value in place if the key is present,
otherwise append the new binding at the end. -/
def dictInsert {α : Type} : Dict α → String → α → Dict α
  | [], k, v => [(k, v)]
  | (k', v') :: rest, k, v =>
    if k' = k then (k', v) :: rest else (k', v') :: dictInsert rest k v

/-- Python `d1 | d2`: keys of `d1` in order, values overridden by `d2`, new
keys of `d2` appended in `d2`'s order. -/
def dictUnion {α : Type} (d1 d2 : Dict α) : Dict α :=
  d2.foldl (fun acc p => dictInsert acc p.1 p.2) d1

/-- Python `d.pop(k)`'s effect on the dict: drop the binding of `k`. -/
def dictRemove {α : Type} (d : Dict α) (k : String) : Dict α :=
  d.filter (fun p => p.1 ≠ k)

/-- Python `d.get(k, dflt)`. -/
def dictGetD {α : Type} (d : Dict α) (k : String) (dflt : α) : α :=
  (dictLookup d k).getD dflt

/-- The key list of a dict. -/
def dictKeys {α : Type} (d : Dict α) : List String :=
  d.map Prod.fst

/-- A scalar cell value (`Values = str | int | float` in `client.py`; floats
are outside the scope of all properties considered here). -/
inductive Value where
  | vStr (s : String)
  | vInt (n : Int)
deriving DecidableEq, Repr

/-- `TableRow = dict[str, Values]`. -/
abbrev TableRow := Dict Value

/-- `Table = list[TableRow]`. -/
abbrev Table := List TableRow

/-- `TablesDict = dict[str, Table]`. -/
abbrev TablesDict := Dict Table

/-- A query value (`WebQuery = dict[str, str | int]`). -/
inductive QVal where
  | qs (v : String)
  | qi (v : Int)
deriving DecidableEq, Repr

/-- `WebQuery = dict[str, str | int]`. -/
abbrev WebQuery := Dict QVal

/-- The original exception chained with `raise ... from err` (only a key
error, a transport error or an HTTP status error is ever chained). -/
inductive PyCause where
  | requestError (url : String)
  | httpStatusError (url : String) (status : Nat)
  | keyError
deriving DecidableEq, Repr

/-- An exception escaping one of the embedded operations.  `issMoex` is the
library's own `ISSMoexError` with its argument tuple and chained cause; the
other constructors are uncaught built-in exceptions. -/
inductive PyErr where
  | valueError
  | typeError
  | indexError
  | keyError
  | jsonDecodeError
  | runtimeError
  | issMoex (args : List String) (cause : Option PyCause)
deriving DecidableEq, Repr

/-- Python `row[k]`: `KeyError` when the key is absent. -/
def rowGet (row : TableRow) (k : String) : Except PyErr Value :=
  match dictLookup row k with
  | some v => .ok v
  | none => .error .keyError

/-- Python `v != n` for a cell value against an `int` (the `cast(int, ...)`
in the source is a no-op at runtime, so a string cell is compared as a
string and is never equal to an integer). -/
def valueNeInt (v : Value) (n : Int) : Bool :=
  match v with
  | .vInt m => m ≠ n
  | .vStr _ => true

/-- `_cursor_block_size(start, cursor_table)` from `client.py`.

`cursor, *wrong_data = cursor_table` raises `ValueError` on an empty list;
`wrong_data or cursor["INDEX"] != start` short-circuits, so `INDEX` is read
only when the table has exactly one row; with a string `PAGESIZE` the
addition `start + block_size` raises `TypeError` before `TOTAL` is read, and
with a string `TOTAL` the comparison raises `TypeError`.  The interpolated
table text of the `ISSMoexError` message is abstracted to its constant
prefix. -/
def cursor_block_size (start : Int) (cursor_table : Table) : Except PyErr Int :=
  match cursor_table with
  | [] => .error .valueError
  | cursor :: wrong_data =>
    if wrong_data = [] then
      match rowGet cursor "INDEX" with
      | .error e => .error e
      | .ok idx =>
        if valueNeInt idx start then
          .error (.issMoex ["Incorrect data in history.cursor"] none)
        else
          match rowGet cursor "PAGESIZE" with
          | .error e => .error e
          | .ok (.vStr _) => .error .typeError
          | .ok (.vInt block_size) =>
            match rowGet cursor "TOTAL" with
            | .error e => .error e
            | .ok (.vStr _) => .error .typeError
            | .ok (.vInt total) =>
              if start + block_size < total then .ok block_size else .ok 0
    else
      .error (.issMoex ["Incorrect data in history.cursor"] none)

/-- **C1.** For a cursor table with exactly one row whose `INDEX` equals the
expected start offset, `_cursor_block_size` returns the row's `PAGESIZE`
when `start + PAGESIZE < TOTAL` and `0` when `start + PAGESIZE ≥ TOTAL`. -/
theorem cursor_block_size_valid_row (start ps total : Int) (row : TableRow)
    (hIdx : dictLookup row "INDEX" = some (.vInt start))
    (hPs : dictLookup row "PAGESIZE" = some (.vInt ps))
    (hTot : dictLookup row "TOTAL" = some (.vInt total)) :
    (start + ps < total → cursor_block_size start [row] = .ok ps) ∧
    (total ≤ start + ps → cursor_block_size start [row] = .ok 0) := by
  constructor <;> intro h <;>
    simp [cursor_block_size, rowGet, hIdx, hPs, hTot, valueNeInt, h]

theorem cursor_block_size_valid_row_witness :
    (cursor_block_size 0 [[("INDEX", .vInt 0), ("TOTAL", .vInt 10), ("PAGESIZE", .vInt 4)]]
        = .ok 4) ∧
    (cursor_block_size 6 [[("INDEX", .vInt 6), ("TOTAL", .vInt 10), ("PAGESIZE", .vInt 4)]]
        = .ok 0) :=
  ⟨(cursor_block_size_valid_row 0 4 10 _ (by decide) (by decide) (by decide)).1 (by decide),
   (cursor_block_size_valid_row 6 4 10 _ (by decide) (by decide) (by decide)).2 (by decide)⟩

/-- **C2 counterexample.**  On an empty cursor table, `_cursor_block_size`
raises `ValueError` (from `cursor, *wrong_data = cursor_table`), not the
data-integrity `ISSMoexError` the claim promises. -/
theorem cursor_block_size_empty_raises_valueerror :
    cursor_block_size 0 [] = .error .valueError := rfl

/-- **C2 (amended).**  With more than one row, or with a single row whose
`INDEX` differs from the expected start, `_cursor_block_size` raises the
data-integrity `ISSMoexError` — determined without reading `TOTAL` or
`PAGESIZE`; with zero rows it raises `ValueError`, not `ISSMoexError`. -/
theorem cursor_block_size_bad_cursor (start : Int) :
    (∀ (row : TableRow) (rest : Table), rest ≠ [] →
        cursor_block_size start (row :: rest)
          = .error (.issMoex ["Incorrect data in history.cursor"] none)) ∧
    (∀ (row : TableRow) (idx : Value), dictLookup row "INDEX" = some idx →
        valueNeInt idx start = true →
        cursor_block_size start [row]
          = .error (.issMoex ["Incorrect data in history.cursor"] none)) ∧
    cursor_block_size start [] = .error .valueError := by
  refine ⟨fun row rest hrest => ?_, fun row idx hIdx hNe => ?_, rfl⟩
  · simp [cursor_block_size, hrest]
  · simp [cursor_block_size, rowGet, hIdx, hNe]

theorem cursor_block_size_bad_cursor_witness :
    (cursor_block_size 0 [[("INDEX", .vInt 0)], [("INDEX", .vInt 1)]]
        = .error (.issMoex ["Incorrect data in history.cursor"] none)) ∧
    (cursor_block_size 0 [[("INDEX", .vInt 5), ("TOTAL", .vInt 10), ("PAGESIZE", .vInt 4)]]
        = .error (.issMoex ["Incorrect data in history.cursor"] none)) :=
  ⟨(cursor_block_size_bad_cursor 0).1 [("INDEX", .vInt 0)] [[("INDEX", .vInt 1)]] (by decide),
   (cursor_block_size_bad_cursor 0).2.1 [("INDEX", .vInt 5), ("TOTAL", .vInt 10), ("PAGESIZE", .vInt 4)]
     (.vInt 5) (by decide) (by decide)⟩

theorem dictLookup_dictInsert_self {α : Type} (d : Dict α) (k : String) (v : α) :
    dictLookup (dictInsert d k v) k = some v := by
  induction d with
  | nil => simp [dictInsert, dictLookup]
  | cons p rest ih =>
    obtain ⟨k', v'⟩ := p
    by_cases h : k' = k <;> simp [dictInsert, dictLookup, h, ih]

theorem dictKeys_cons {α : Type} (k : String) (v : α) (rest : Dict α) :
    dictKeys ((k, v) :: rest) = k :: dictKeys rest := rfl

theorem dictLookup_dictInsert_ne {α : Type} (d : Dict α) (k k' : String) (v : α)
    (hk : k ≠ k') : dictLookup (dictInsert d k' v) k = dictLookup d k := by
  induction d with
  | nil => simp [dictInsert, dictLookup, Ne.symm hk]
  | cons p rest ih =>
    obtain ⟨k₀, v₀⟩ := p
    by_cases h : k₀ = k' <;> by_cases h₀ : k₀ = k <;>
      simp_all [dictInsert, dictLookup]

theorem dictLookup_eq_none_of_not_mem_keys {α : Type} (d : Dict α) (k : String)
    (h : k ∉ dictKeys d) : dictLookup d k = none := by
  induction d with
  | nil => rfl
  | cons p rest ih =>
    obtain ⟨k', v'⟩ := p
    rw [dictKeys_cons, List.mem_cons] at h
    push_neg at h
    simp [dictLookup, Ne.symm h.1, ih h.2]

theorem dictLookup_dictUnion_right_none {α : Type} (d1 d2 : Dict α) (k : String)
    (h : dictLookup d2 k = none) :
    dictLookup (dictUnion d1 d2) k = dictLookup d1 k := by
  induction d2 generalizing d1 with
  | nil => rfl
  | cons p rest ih =>
    obtain ⟨k', v'⟩ := p
    by_cases hk : k' = k
    · simp [dictLookup, hk] at h
    · simp only [dictLookup, if_neg hk] at h
      show dictLookup (dictUnion (dictInsert d1 k' v') rest) k = _
      rw [ih _ h, dictLookup_dictInsert_ne _ _ _ _ (fun hkk => hk hkk.symm)]

theorem dictLookup_dictUnion_right_some {α : Type} (d1 d2 : Dict α) (k : String) (v : α)
    (hnd : (dictKeys d2).Nodup) (h : dictLookup d2 k = some v) :
    dictLookup (dictUnion d1 d2) k = some v := by
  induction d2 generalizing d1 with
  | nil => simp [dictLookup] at h
  | cons p rest ih =>
    obtain ⟨k', v'⟩ := p
    rw [dictKeys_cons, List.nodup_cons] at hnd
    show dictLookup (dictUnion (dictInsert d1 k' v') rest) k = some v
    by_cases hk : k' = k
    · subst hk
      simp [dictLookup] at h
      have hrest : dictLookup rest k' = none :=
        dictLookup_eq_none_of_not_mem_keys _ _ hnd.1
      rw [dictLookup_dictUnion_right_none _ _ _ hrest, dictLookup_dictInsert_self, h]
    · have h' : dictLookup rest k = some v := by simpa [dictLookup, hk] using h
      exact ih (dictInsert d1 k' v') hnd.2 h'

/-- The fixed query parameters injected by `_make_query`. -/
def fixedQuery : WebQuery := [("iss.json", .qs "extended"), ("iss.meta", .qs "off")]

/-- `ISSClient._make_query(start)` from `client.py`: the fixed parameters,
overridden/extended by the client's base query (`dict |`), then `start`
assigned only when `if start:` is truthy (non-`None` and non-zero). -/
def make_query (base : WebQuery) (start : Option Int) : WebQuery :=
  let query := dictUnion fixedQuery base
  match start with
  | none => query
  | some n => if n = 0 then query else dictInsert query "start" (.qi n)

/-- **C4 counterexample.**  A base query that itself binds `start` keeps that
entry even when the start argument is null, so "`start` present iff the
argument is non-null and non-zero" fails as stated for arbitrary base
queries. -/
theorem make_query_start_passthrough :
    dictLookup (make_query [("start", .qi 7)] none) "start" = some (.qi 7) := by
  decide

/-- **C4 (amended).**  The effective query is the fixed pair
`{iss.json: extended, iss.meta: off}` merged with the base query, extended
with a `start` entry exactly when the argument is non-null and non-zero;
`_make_query(0)` and `_make_query(None)` coincide.  The presence of `start`
in the result is equivalent to the argument being non-null and non-zero
whenever the base query does not itself bind `start`. -/
theorem make_query_start_handling (base : WebQuery) :
    make_query base none = make_query base (some 0) ∧
    make_query base none = dictUnion fixedQuery base ∧
    (∀ n : Int, n ≠ 0 →
        make_query base (some n) = dictInsert (dictUnion fixedQuery base) "start" (.qi n)) ∧
    (dictLookup base "start" = none →
      dictLookup (make_query base none) "start" = none ∧
      ∀ n : Int, n ≠ 0 → dictLookup (make_query base (some n)) "start" = some (.qi n)) := by
  refine ⟨by simp [make_query], rfl, fun n hn => by simp [make_query, hn], fun hb => ⟨?_, ?_⟩⟩
  · show dictLookup (dictUnion fixedQuery base) "start" = none
    rw [dictLookup_dictUnion_right_none _ _ _ hb]; rfl
  · intro n hn
    simp [make_query, hn, dictLookup_dictInsert_self]

theorem make_query_start_handling_witness :
    dictLookup (make_query [("q", .qs "x")] none) "start" = none ∧
    dictLookup (make_query [("q", .qs "x")] (some 5)) "start" = some (.qi 5) :=
  ⟨((make_query_start_handling [("q", .qs "x")]).2.2.2 (by decide)).1,
   ((make_query_start_handling [("q", .qs "x")]).2.2.2 (by decide)).2 5 (by decide)⟩

/-- **C10.**  In the merged effective query, the base query's bindings take
precedence over the fixed parameters: a base query binding `iss.json` or
`iss.meta` keeps its own value in the result of `_make_query`. -/
theorem make_query_base_precedence (base : WebQuery) (s : Option Int)
    (hnd : (dictKeys base).Nodup) :
    (∀ v, dictLookup base "iss.json" = some v →
        dictLookup (make_query base s) "iss.json" = some v) ∧
    (∀ v, dictLookup base "iss.meta" = some v →
        dictLookup (make_query base s) "iss.meta" = some v) := by
  have key : ∀ (k : String) (v : QVal), k ≠ "start" → dictLookup base k = some v →
      dictLookup (make_query base s) k = some v := by
    intro k v hk hv
    have hu : dictLookup (dictUnion fixedQuery base) k = some v :=
      dictLookup_dictUnion_right_some _ _ _ _ hnd hv
    match s with
    | none => exact hu
    | some n =>
      by_cases hn : n = 0
      · simpa [make_query, hn] using hu
      · simpa [make_query, hn, dictLookup_dictInsert_ne _ _ _ _ hk] using hu
  exact ⟨fun v => key "iss.json" v (by decide), fun v => key "iss.meta" v (by decide)⟩

theorem make_query_base_precedence_witness :
    dictLookup (make_query [("iss.json", .qs "on"), ("iss.meta", .qs "full")] (some 3))
        "iss.json" = some (.qs "on") ∧
    dictLookup (make_query [("iss.json", .qs "on"), ("iss.meta", .qs "full")] (some 3))
        "iss.meta" = some (.qs "full") :=
  ⟨(make_query_base_precedence [("iss.json", .qs "on"), ("iss.meta", .qs "full")] (some 3)
      (by decide)).1 _ (by decide),
   (make_query_base_precedence [("iss.json", .qs "on"), ("iss.meta", .qs "full")] (some 3)
      (by decide)).2 _ (by decide)⟩

/-- A JSON value, as produced by `response.json()`.  JSON numbers are
restricted to integers: no property below involves numeric payloads of the
envelope. -/
inductive Json where
  | null
  | bool (b : Bool)
  | num (n : Int)
  | str (s : String)
  | arr (elems : List Json)
  | obj (fields : List (String × Json))

/-- The outcome of the one `GET` issued by `ISSClient.get`: either the
transport fails (`httpx.RequestError`), or a status and a body arrive, the
body being `none` when it is not valid JSON (`response.json()` then raises
`json.JSONDecodeError`). -/
inductive HttpOutcome where
  | transportFailure
  | success (status : Nat) (body : Option Json)

/-- Python `x[1]` on a decoded JSON value: element 1 of a list (or
`IndexError`), `KeyError` on a JSON object (its keys are strings, never the
integer `1`), character 1 of a string (or `IndexError`), `TypeError` on the
remaining non-subscriptable values. -/
def pySubscript1 : Json → Except PyErr Json
  | .arr elems =>
    match elems with
    | _ :: y :: _ => .ok y
    | _ => .error .indexError
  | .obj _ => .error .keyError
  | .str s =>
    match s.toList with
    | _ :: c :: _ => .ok (.str (String.mk [c]))
    | _ => .error .indexError
  | _ => .error .typeError

/-- `ISSClient.get` from `client.py`.  `raise_for_status()` raises
`httpx.HTTPStatusError` on any non-2xx status, which the `except` clauses
convert to `ISSMoexError("HTTP error", url)` chained to the original error;
an `httpx.RequestError` becomes `ISSMoexError("Connection error", url)`
likewise.  On a 2xx response the body is decoded (`JSONDecodeError`
propagates uncaught) and `raw_respond[1]` is returned, whatever it is.
The request URL is abstracted as the configured URL string. -/
def issGet (url : String) (outcome : HttpOutcome) : Except PyErr Json :=
  match outcome with
  | .transportFailure =>
    .error (.issMoex ["Connection error", url] (some (.requestError url)))
  | .success status body =>
    if 200 ≤ status ∧ status < 300 then
      match body with
      | none => .error .jsonDecodeError
      | some j => pySubscript1 j
    else
      .error (.issMoex ["HTTP error", url] (some (.httpStatusError url status)))

/-- **C3 counterexample.**  A 2xx response with a malformed JSON body makes
`ISSClient.get` fail with the raw `json.JSONDecodeError` — an unclassified
exception, not the client's `ISSMoexError`. -/
theorem issGet_malformed_json_unclassified :
    issGet "u" (.success 200 none) = .error .jsonDecodeError := rfl

/-- **C3 (amended).**  Envelope deviations on a 2xx response are not
converted to `ISSMoexError`: malformed JSON fails with `JSONDecodeError`, an
array of fewer than two elements with `IndexError`, a JSON object with
`KeyError`, a non-subscriptable body with `TypeError`, and a two-element
array is returned successfully whatever its second element is (no shape
check at all). -/
theorem issGet_envelope_deviations (url : String) (status : Nat)
    (h2 : 200 ≤ status) (h3 : status < 300) :
    issGet url (.success status none) = .error .jsonDecodeError ∧
    (∀ elems : List Json, elems.length ≤ 1 →
        issGet url (.success status (some (.arr elems))) = .error .indexError) ∧
    (∀ fields, issGet url (.success status (some (.obj fields))) = .error .keyError) ∧
    (∀ n : Int, issGet url (.success status (some (.num n))) = .error .typeError) ∧
    (∀ (x y : Json) (rest : List Json),
        issGet url (.success status (some (.arr (x :: y :: rest)))) = .ok y) := by
  refine ⟨by simp [issGet, h2, h3], fun elems hlen => ?_,
    fun fields => by simp [issGet, h2, h3, pySubscript1],
    fun n => by simp [issGet, h2, h3, pySubscript1],
    fun x y rest => by simp [issGet, h2, h3, pySubscript1]⟩
  match elems with
  | [] => simp [issGet, h2, h3, pySubscript1]
  | [x] => simp [issGet, h2, h3, pySubscript1]
  | x :: y :: rest => simp at hlen

theorem issGet_envelope_deviations_witness :
    issGet "u" (.success 200 (some (.arr []))) = .error .indexError ∧
    issGet "u" (.success 200 (some (.arr [.null, .num 7]))) = .ok (.num 7) :=
  ⟨(issGet_envelope_deviations "u" 200 (by decide) (by decide)).2.1 [] (by decide),
   (issGet_envelope_deviations "u" 200 (by decide) (by decide)).2.2.2.2 .null (.num 7) []⟩

/-- **C9.**  A non-2xx status makes `ISSClient.get` fail with the HTTP-error
`ISSMoexError` carrying the request URL in its arguments and the status via
the chained `httpx.HTTPStatusError`; a transport failure makes it fail with
the connection-error `ISSMoexError` carrying the request URL. -/
theorem issGet_http_and_connection_errors (url : String) :
    (∀ (status : Nat) (body : Option Json), ¬(200 ≤ status ∧ status < 300) →
        issGet url (.success status body)
          = .error (.issMoex ["HTTP error", url] (some (.httpStatusError url status)))) ∧
    issGet url .transportFailure
      = .error (.issMoex ["Connection error", url] (some (.requestError url))) := by
  exact ⟨fun status body h => by simp [issGet, h], rfl⟩

theorem issGet_http_and_connection_errors_witness :
    issGet "https://iss.moex.com/iss/x.json" (.success 404 none)
      = .error (.issMoex ["HTTP error", "https://iss.moex.com/iss/x.json"]
          (some (.httpStatusError "https://iss.moex.com/iss/x.json" 404))) :=
  (issGet_http_and_connection_errors "https://iss.moex.com/iss/x.json").1 404 none (by decide)

theorem dictLookup_dictRemove_self {α : Type} (d : Dict α) (k : String) :
    dictLookup (dictRemove d k) k = none := by
  induction d with
  | nil => rfl
  | cons p rest ih =>
    obtain ⟨k', v'⟩ := p
    by_cases h : k' = k <;> simp [dictRemove, List.filter_cons, h, dictLookup] <;>
      simpa [dictRemove] using ih

/-- How one run of the `_iterator_maker` generator ends: the generator
completes normally, an exception escapes it, or the step bound (fuel) of the
embedding was reached before it ended. -/
inductive RunTail where
  | done
  | failed (e : PyErr)
  | truncated
deriving DecidableEq, Repr

/-- `ISSClient._iterator_maker` from `client.py`, with the server abstracted
as a map from the start offset to the outcome of `self.get(start)` and a
fuel bound on loop iterations.  Returns the pages yielded, in order, and how
the run ended.  In the cursor branch the page is yielded (with
`history.cursor` popped) before `_cursor_block_size` runs, so its failure
follows the yielded page; in the cursor-less branch an empty response dict
makes `next(iter(respond))` raise `StopIteration`, which PEP 479 turns into
a `RuntimeError` after the page was yielded. -/
def paginate (server : Int → Except PyErr TablesDict) :
    Nat → Int → List TablesDict × RunTail
  | 0, _ => ([], .truncated)
  | fuel + 1, start =>
    match server start with
    | .error e => ([], .failed e)
    | .ok respond =>
      match dictLookup respond "history.cursor" with
      | some cursor_table =>
        let page := dictRemove respond "history.cursor"
        match cursor_block_size start cursor_table with
        | .error e => ([page], .failed e)
        | .ok block_size =>
          if block_size = 0 then ([page], .done)
          else
            let rest := paginate server fuel (start + block_size)
            (page :: rest.1, rest.2)
      | none =>
        match respond with
        | [] => ([respond], .failed .runtimeError)
        | (_, rows) :: _ =>
          if rows.length = 0 then ([respond], .done)
          else
            let rest := paginate server fuel (start + rows.length)
            (respond :: rest.1, rest.2)

/-- **C5.**  Every page yielded by the pagination sequence is free of the
reserved `history.cursor` table: a fetched page containing it has it removed
before being yielded, and a page without it trivially satisfies the
invariant. -/
theorem pages_never_contain_cursor (server : Int → Except PyErr TablesDict)
    (fuel : Nat) (start : Int) (page : TablesDict)
    (hmem : page ∈ (paginate server fuel start).1) :
    dictLookup page "history.cursor" = none := by
  induction fuel generalizing start with
  | zero => simp [paginate] at hmem
  | succ fuel ih =>
    cases hs : server start with
    | error e => simp [paginate, hs] at hmem
    | ok respond =>
      cases hc : dictLookup respond "history.cursor" with
      | some ct =>
        cases hb : cursor_block_size start ct with
        | error e =>
          simp [paginate, hs, hc, hb] at hmem
          exact hmem ▸ dictLookup_dictRemove_self respond "history.cursor"
        | ok bs =>
          by_cases hbs : bs = 0
          · simp [paginate, hs, hc, hb, hbs] at hmem
            exact hmem ▸ dictLookup_dictRemove_self respond "history.cursor"
          · simp [paginate, hs, hc, hb, hbs] at hmem
            rcases hmem with hmem | hmem
            · exact hmem ▸ dictLookup_dictRemove_self respond "history.cursor"
            · exact ih _ hmem
      | none =>
        match respond, hc with
        | [], hc =>
          simp [paginate, hs, hc] at hmem
          simp [hmem, dictLookup]
        | (nm, rows) :: rest', hc =>
          by_cases hr : rows.length = 0
          · simp [paginate, hs, hc, hr] at hmem
            exact hmem ▸ hc
          · simp [paginate, hs, hc, hr] at hmem
            rcases hmem with hmem | hmem
            · exact hmem ▸ hc
            · exact ih _ hmem

theorem pages_never_contain_cursor_witness :
    dictLookup [("data", ([] : Table))] "history.cursor" = none :=
  pages_never_contain_cursor (fun _ => Except.ok [("data", [])]) 1 0
    [("data", [])] (by decide)

/-- A server consistent with one finite dataset of `total` rows: every
successful cursor response at offset `s` carries a single-row cursor with
`INDEX = s`, a nonnegative integer `PAGESIZE` and `TOTAL = total`, and every
successful cursor-less response at an offset past `total` has an empty first
table. -/
def FiniteDataset (server : Int → Except PyErr TablesDict) (total : Int) : Prop :=
  ∀ (s : Int) (respond : TablesDict), server s = .ok respond →
    (∀ ct, dictLookup respond "history.cursor" = some ct →
        ∃ (row : TableRow) (p : Int),
          ct = [row] ∧
          dictLookup row "INDEX" = some (.vInt s) ∧
          dictLookup row "PAGESIZE" = some (.vInt p) ∧ 0 ≤ p ∧
          dictLookup row "TOTAL" = some (.vInt total)) ∧
    (dictLookup respond "history.cursor" = none →
        ∀ (name : String) (rows : Table) (rest : TablesDict),
          respond = (name, rows) :: rest → total ≤ s → rows = [])

/-- **C6.**  Against any server consistent with a finite dataset, the
pagination sequence is finite: with fuel beyond the remaining-row bound the
run never ends by fuel exhaustion (it completes, at a computed block size of
`0`, or propagates an error).  Moreover a cursor-less response whose single
table is empty ends the sequence right after that one (empty) page is
yielded. -/
theorem pagination_terminates (server : Int → Except PyErr TablesDict) (total : Int) :
    (FiniteDataset server total →
      ∀ (fuel : Nat) (start : Int), (total - start).toNat + 1 ≤ fuel →
        (paginate server fuel start).2 ≠ .truncated) ∧
    (∀ (s : Int) (name : String) (fuel : Nat), name ≠ "history.cursor" →
        server s = .ok [(name, [])] → 1 ≤ fuel →
        paginate server fuel s = ([[(name, [])]], .done)) := by
  constructor
  · intro hfd fuel
    induction fuel with
    | zero => intro start hle; omega
    | succ fuel ih =>
      intro start hle
      cases hs : server start with
      | error e => simp [paginate, hs]
      | ok respond =>
        cases hc : dictLookup respond "history.cursor" with
        | some ct =>
          obtain ⟨row, p, hct, hidx, hps, hp0, htot⟩ := ((hfd start respond hs).1) ct hc
          subst hct
          by_cases hlt : start + p < total
          · have hb : cursor_block_size start [row] = .ok p := by
              simp [cursor_block_size, rowGet, hidx, hps, htot, valueNeInt, hlt]
            by_cases hp : p = 0
            · simp [paginate, hs, hc, hb, hp]
            · have hrec := ih (start + p) (by omega)
              simp [paginate, hs, hc, hb, hp]
              exact hrec
          · have hb : cursor_block_size start [row] = .ok 0 := by
              simp [cursor_block_size, rowGet, hidx, hps, htot, valueNeInt, hlt]
            simp [paginate, hs, hc, hb]
        | none =>
          match respond, hc with
          | [], hc => simp [paginate, hs, hc]
          | (nm, rows) :: rest', hc =>
            by_cases hr : rows.length = 0
            · simp [paginate, hs, hc, hr]
            · have hlt : start < total := by
                by_contra hge
                have : rows = [] :=
                  ((hfd start _ hs).2 hc) nm rows rest' rfl (by omega)
                simp [this] at hr
              have hrec := ih (start + rows.length) (by omega)
              simp [paginate, hs, hc, hr]
              exact hrec
  · intro s name fuel hname hs hfuel
    match fuel, hfuel with
    | fuel + 1, _ =>
      have hc : dictLookup [(name, ([] : Table))] "history.cursor" = none := by
        simp [dictLookup, hname]
      simp [paginate, hs, hc]

theorem pagination_terminates_witness :
    (paginate (fun _ => Except.ok [("data", ([] : Table))]) 1 0).2 ≠ .truncated ∧
    paginate (fun _ => Except.ok [("data", ([] : Table))]) 1 0
      = ([[("data", [])]], .done) := by
  constructor
  · apply (pagination_terminates (fun _ => Except.ok [("data", [])]) 0).1 ?_ 1 0 (by decide)
    intro s respond hresp
    have hr : [("data", ([] : Table))] = respond := Except.ok.inj hresp
    subst hr
    constructor
    · intro ct hct
      simp [dictLookup] at hct
    · intro _ name rows rest heq _
      cases heq
      rfl
  · exact (pagination_terminates (fun _ => Except.ok [("data", [])]) 0).2 0 "data" 1
      (by decide) rfl (by decide)

/-- The body of `ISSClient.get_all`'s `async for` loop for one yielded
block: for each table of the block, `all_data.setdefault(name, []).extend(rows)`
appends the block's rows to the accumulated table (in place, keeping its
position) or appends a fresh binding at the end. -/
def mergeBlock (all_data : TablesDict) (block : TablesDict) : TablesDict :=
  block.foldl (fun acc p => dictInsert acc p.1 (dictGetD acc p.1 [] ++ p.2)) all_data

/-- `ISSClient.get_all` from `client.py`, over the finite list of blocks the
pagination sequence yielded. -/
def get_all (blocks : List TablesDict) : TablesDict :=
  blocks.foldl mergeBlock []

/-- The rows a table name collects across blocks, in block order then
within-block order. -/
def rowsAcross (blocks : List TablesDict) (name : String) : Table :=
  (blocks.map (fun b => dictGetD b name [])).flatten

theorem dictLookup_mergeBlock (acc block : TablesDict) (name : String)
    (hnd : (dictKeys block).Nodup) :
    dictLookup (mergeBlock acc block) name =
      match dictLookup acc name with
      | some t => some (t ++ dictGetD block name [])
      | none => dictLookup block name := by
  induction block generalizing acc with
  | nil =>
    show dictLookup acc name = _
    cases h : dictLookup acc name <;> simp [dictGetD, dictLookup]
  | cons p rest ih =>
    obtain ⟨k, rows⟩ := p
    rw [dictKeys_cons, List.nodup_cons] at hnd
    show dictLookup (mergeBlock (dictInsert acc k (dictGetD acc k [] ++ rows)) rest) name = _
    rw [ih _ hnd.2]
    by_cases hk : name = k
    · subst hk
      have hrest : dictLookup rest name = none :=
        dictLookup_eq_none_of_not_mem_keys _ _ hnd.1
      rw [dictLookup_dictInsert_self]
      cases h : dictLookup acc name <;>
        simp [h, dictGetD, dictLookup, hrest]
    · rw [dictLookup_dictInsert_ne _ _ _ _ hk]
      cases h : dictLookup acc name <;>
        simp [h, dictGetD, dictLookup, Ne.symm hk]

theorem dictLookup_foldl_mergeBlock (blocks : List TablesDict) (acc : TablesDict)
    (name : String) (hnd : ∀ b ∈ blocks, (dictKeys b).Nodup) :
    dictLookup (blocks.foldl mergeBlock acc) name =
      match dictLookup acc name with
      | some t => some (t ++ rowsAcross blocks name)
      | none =>
        if blocks.any (fun b => (dictLookup b name).isSome)
        then some (rowsAcross blocks name)
        else none := by
  induction blocks generalizing acc with
  | nil =>
    cases h : dictLookup acc name <;> simp [h, rowsAcross]
  | cons b bs ih =>
    have hb : (dictKeys b).Nodup := hnd b (by simp)
    have hbs : ∀ b' ∈ bs, (dictKeys b').Nodup := fun b' hb' => hnd b' (by simp [hb'])
    show dictLookup (bs.foldl mergeBlock (mergeBlock acc b)) name = _
    rw [ih _ hbs, dictLookup_mergeBlock _ _ _ hb]
    cases ha : dictLookup acc name with
    | some t =>
      simp [rowsAcross, List.append_assoc]
    | none =>
      cases hbn : dictLookup b name with
      | some t' =>
        simp [rowsAcross, hbn, dictGetD]
      | none =>
        simp [rowsAcross, hbn, dictGetD]

theorem foldl_mergeBlock_single (name : String) (chunks : List Table) (a : Table) :
    (chunks.map (fun c => [(name, c)])).foldl mergeBlock [(name, a)]
      = [(name, a ++ chunks.flatten)] := by
  induction chunks generalizing a with
  | nil => simp
  | cons c cs ih =>
    show (cs.map (fun c => [(name, c)])).foldl mergeBlock
        (mergeBlock [(name, a)] [(name, c)]) = _
    have hm : mergeBlock [(name, a)] [(name, c)] = [(name, a ++ c)] := by
      show dictInsert [(name, a)] name (dictGetD [(name, a)] name [] ++ c) = _
      simp [dictInsert, dictGetD, dictLookup]
    rw [hm, ih]
    simp

/-- **C7.**  Aggregation merges pages by concatenation: for every table
name, the aggregated table is the concatenation of that name's rows in
page-yield order then within-page order (absent from the result exactly when
absent from every page), and the merge is associative over page partitions —
any splitting of a table's rows into page-sized chunks aggregates to the
same result as the single page holding all rows. -/
theorem get_all_concat_assoc :
    (∀ (blocks : List TablesDict) (name : String),
        (∀ b ∈ blocks, (dictKeys b).Nodup) →
        dictLookup (get_all blocks) name =
          if blocks.any (fun b => (dictLookup b name).isSome)
          then some (rowsAcross blocks name)
          else none) ∧
    (∀ (name : String) (chunks : List Table), chunks ≠ [] →
        get_all (chunks.map (fun c => [(name, c)]))
          = get_all [[(name, chunks.flatten)]]) := by
  constructor
  · intro blocks name hnd
    show dictLookup (blocks.foldl mergeBlock []) name = _
    rw [dictLookup_foldl_mergeBlock _ _ _ hnd]
    rfl
  · intro name chunks hne
    match chunks, hne with
    | c :: cs, _ =>
      have h1 : get_all ((c :: cs).map (fun c => [(name, c)]))
          = [(name, c ++ cs.flatten)] := by
        show (cs.map (fun c => [(name, c)])).foldl mergeBlock
            (mergeBlock [] [(name, c)]) = _
        have hm : mergeBlock [] [(name, c)] = [(name, c)] := rfl
        rw [hm, foldl_mergeBlock_single]
      have h2 : get_all [[(name, (c :: cs).flatten)]]
          = [(name, c ++ cs.flatten)] := by
        show mergeBlock [] [(name, (c :: cs).flatten)] = _
        rfl
      rw [h1, h2]

theorem get_all_concat_assoc_witness :
    dictLookup
        (get_all [[("a", [[("x", .vInt 1)]]), ("b", [[("x", .vInt 2)]])],
                  [("a", [[("x", .vInt 3)]])]]) "a"
      = some [[("x", .vInt 1)], [("x", .vInt 3)]] ∧
    get_all ([[[("x", .vInt 1)]], [[("x", .vInt 2)]]].map (fun c => [("d", c)]))
      = get_all [[("d", [[("x", .vInt 1)], [("x", .vInt 2)]])]] := by
  constructor
  · rw [get_all_concat_assoc.1 _ "a" (by decide)]
    decide
  · exact get_all_concat_assoc.2 "d" [[[("x", .vInt 1)]], [[("x", .vInt 2)]]] (by decide)

/-- `get_table` from `request_helpers.py`: subscript the tables dict, and
turn the `KeyError` of a missing name into
`ISSMoexError(f"Table {table_name} is missing in the data")` chained to it. -/
def get_table (table_dict : TablesDict) (table_name : String) : Except PyErr Table :=
  match dictLookup table_dict table_name with
  | some table => .ok table
  | none =>
    .error (.issMoex ["Table " ++ table_name ++ " is missing in the data"]
      (some .keyError))

/-- **C8.**  Extracting an absent table name fails with the missing-table
`ISSMoexError` naming that table; extracting a present name returns exactly
the stored table — the same list of rows, unmodified and in order. -/
theorem get_table_spec (table_dict : TablesDict) (table_name : String) :
    (dictLookup table_dict table_name = none →
        get_table table_dict table_name
          = .error (.issMoex ["Table " ++ table_name ++ " is missing in the data"]
              (some .keyError))) ∧
    (∀ table, dictLookup table_dict table_name = some table →
        get_table table_dict table_name = .ok table) := by
  constructor
  · intro h; simp [get_table, h]
  · intro table h; simp [get_table, h]

theorem get_table_spec_witness :
    get_table [("securities", [[("SECID", .vStr "GAZP")]])] "boards"
      = .error (.issMoex ["Table boards is missing in the data"] (some .keyError)) ∧
    get_table [("securities", [[("SECID", .vStr "GAZP")]])] "securities"
      = .ok [[("SECID", .vStr "GAZP")]] :=
  ⟨(get_table_spec [("securities", [[("SECID", .vStr "GAZP")]])] "boards").1 (by decide),
   (get_table_spec [("securities", [[("SECID", .vStr "GAZP")]])] "securities").2
     _ (by decide)⟩

end Amoex
